import Mathlib

/-!
Verification development for the outlookscraper repository (`outlook_web.py`,
`test_mtls.py`).  The Python source is shallowly embedded: strings are handled
as `List Char` segments, Python `datetime` values as a record of `Nat` fields
validated exactly as the `datetime` constructor validates them, exceptions as
`Except PyExn` (distinguishing the `ValueError` the code catches from the
`OverflowError` it does not), and the two regular expressions used by
`parse_event` as
explicit backtracking matchers that mirror `re.match` / `re.search` semantics
(greedy quantifiers, leftmost match, left-to-right alternation) for those two
concrete patterns.  Character classes model the ASCII behaviour of Python's
`\w`, `\s`, `\d`, `str.strip`, `str.lower`; the claims under study only involve
ASCII text.
-/

/-- ASCII model of Python's regex class `\w` ([a-zA-Z0-9_]). -/
def isWordChar (c : Char) : Bool := c.isAlpha || c.isDigit || c = '_'

/-- ASCII model of Python's regex class `\s` and of the characters removed by
`str.strip()`: space, tab, newline, carriage return, vertical tab, form feed. -/
def isSpaceChar (c : Char) : Bool :=
  c = ' ' || c = '\t' || c = '\n' || c = '\r' || c = '\x0b' || c = '\x0c'

/-- Python's regex class `\d`. -/
def isDigitChar (c : Char) : Bool := c.isDigit

/-- Python `str.strip()`: remove leading and trailing whitespace. -/
def pyStrip (s : List Char) : List Char :=
  ((s.dropWhile isSpaceChar).reverse.dropWhile isSpaceChar).reverse

/-- Python `raw.split(',')`: split on every comma, keeping empty segments;
the result is always non-empty (`"".split(',') == [""]`). -/
def pySplitComma : List Char → List (List Char)
  | [] => [[]]
  | c :: rest =>
    if c = ',' then [] :: pySplitComma rest
    else
      match pySplitComma rest with
      | [] => [[c]]
      | seg :: segs => (c :: seg) :: segs

/-- Python `needle in hay` for strings: contiguous substring test. -/
def containsSub (needle : List Char) : List Char → Bool
  | [] => needle.isEmpty
  | hay@(_ :: t) => needle.isPrefixOf hay || containsSub needle t

/-- ASCII model of Python `str.lower()` applied character-wise. -/
def pyLower (s : List Char) : List Char := s.map Char.toLower

/-! ### Backtracking regex pieces

Each combinator returns the candidate `(consumed, remaining)` splits in the
preference order Python's backtracking engine explores them; `List.findSome?`
over these candidates with the continuation inside therefore reproduces the
engine's depth-first search with greedy quantifiers. -/

/-- Candidate splits for a greedy `p+`: longest run first, down to one char. -/
def plusSplits (p : Char → Bool) (s : List Char) : List (List Char × List Char) :=
  let run := s.takeWhile p
  let rest := s.dropWhile p
  (List.range run.length).map fun k =>
    (run.take (run.length - k), run.drop (run.length - k) ++ rest)

/-- Candidate splits for a greedy `p*`: longest run first, down to zero chars. -/
def starSplits (p : Char → Bool) (s : List Char) : List (List Char × List Char) :=
  let run := s.takeWhile p
  let rest := s.dropWhile p
  (List.range (run.length + 1)).map fun k =>
    (run.take (run.length - k), run.drop (run.length - k) ++ rest)

/-- Candidate splits for greedy `\d{1,2}`: two digits first, then one digit. -/
def d12Splits (s : List Char) : List (List Char × List Char) :=
  match s with
  | a :: b :: rest =>
    if isDigitChar a && isDigitChar b then [([a, b], rest), ([a], b :: rest)]
    else if isDigitChar a then [([a], b :: rest)]
    else []
  | [a] => if isDigitChar a then [([a], [])] else []
  | [] => []

/-- Exactly `n` characters of class `p` (regex `p{n}`); no boundary check after. -/
def repNSplit (p : Char → Bool) (n : Nat) (s : List Char) : Option (List Char × List Char) :=
  let pre := s.take n
  if pre.length = n && pre.all p then some (pre, s.drop n) else none

/-- Candidate splits for a greedy optional literal char (regex `c?`). -/
def optSplits (c : Char) (s : List Char) : List (List Char × List Char) :=
  match s with
  | a :: rest => if a = c then [([a], rest), ([], a :: rest)] else [([], a :: rest)]
  | [] => [([], [])]

/-- Literal string at the head of the input. -/
def litSplit (lit : List Char) (s : List Char) : Option (List Char × List Char) :=
  if lit.isPrefixOf s then some (lit, s.drop lit.length) else none

/-- Model of `re.match(r'(\w+day),?\s+(\w+)\s+(\d+),?\s+(\d{4})', s)` anchored at
the start of `s` (outlook_web.py line 353): returns the captures
(group 2 month name, group 3 day digits, group 4 year digits) of the match the
backtracking engine finds first, or `none`. -/
def dateMatchAt (s : List Char) : Option (List Char × List Char × List Char) :=
  (plusSplits isWordChar s).findSome? fun w1 =>
    (litSplit "day".data w1.2).bind fun w2 =>
    (optSplits ',' w2.2).findSome? fun w3 =>
    (plusSplits isSpaceChar w3.2).findSome? fun w4 =>
    (plusSplits isWordChar w4.2).findSome? fun g2 =>
    (plusSplits isSpaceChar g2.2).findSome? fun w5 =>
    (plusSplits isDigitChar w5.2).findSome? fun g3 =>
    (optSplits ',' g3.2).findSome? fun w6 =>
    (plusSplits isSpaceChar w6.2).findSome? fun w7 =>
    (repNSplit isDigitChar 4 w7.2).map fun g4 => (g2.1, g3.1, g4.1)

/-- Model of `re.search` with the date pattern: try each start position left to
right (leftmost match wins). -/
def dateSearch : List Char → Option (List Char × List Char × List Char)
  | [] => dateMatchAt []
  | c :: t =>
    match dateMatchAt (c :: t) with
    | some r => some r
    | none => dateSearch t

/-- AM/PM tag captured by the time-range regex. -/
inductive AmPm
  | am
  | pm
deriving DecidableEq

/-- The alternation `(AM|PM)` at the head of the input (left branch first). -/
def ampmSplit (s : List Char) : Option (AmPm × List Char) :=
  if "AM".data.isPrefixOf s then some (.am, s.drop 2)
  else if "PM".data.isPrefixOf s then some (.pm, s.drop 2)
  else none

/-- Digit characters to a number, `int()` on a digit string. -/
def digitsToNat (ds : List Char) : Nat :=
  ds.foldl (fun n c => n * 10 + (c.toNat - '0'.toNat)) 0

/-- Model of `re.match(r'(\d{1,2}):(\d{2})\s*(AM|PM)\s+to\s+(\d{1,2}):(\d{2})\s*(AM|PM)', s)`
(outlook_web.py line 373): returns
(start hour, start minute, start AM/PM, end hour, end minute, end AM/PM). -/
def timeMatchAt (s : List Char) : Option (Nat × Nat × AmPm × Nat × Nat × AmPm) :=
  (d12Splits s).findSome? fun h1 =>
    (litSplit [':'] h1.2).bind fun w1 =>
    (repNSplit isDigitChar 2 w1.2).bind fun m1 =>
    (starSplits isSpaceChar m1.2).findSome? fun w2 =>
    (ampmSplit w2.2).bind fun ap1 =>
    (plusSplits isSpaceChar ap1.2).findSome? fun w3 =>
    (litSplit "to".data w3.2).bind fun w4 =>
    (plusSplits isSpaceChar w4.2).findSome? fun w5 =>
    (d12Splits w5.2).findSome? fun h2 =>
    (litSplit [':'] h2.2).bind fun w6 =>
    (repNSplit isDigitChar 2 w6.2).bind fun m2 =>
    (starSplits isSpaceChar m2.2).findSome? fun w7 =>
    (ampmSplit w7.2).map fun ap2 =>
      (digitsToNat h1.1, digitsToNat m1.1, ap1.1, digitsToNat h2.1, digitsToNat m2.1, ap2.1)

/-! ### Python `datetime` model -/

/-- A naive Python `datetime` as constructed by `parse_event` (seconds and
microseconds are always zero there and are omitted). -/
structure PyDateTime where
  year : Nat
  month : Nat
  day : Nat
  hour : Nat
  minute : Nat
deriving DecidableEq

/-- Gregorian leap-year rule used by Python's `datetime`. -/
def isLeap (y : Nat) : Bool := (y % 4 = 0 && y % 100 ≠ 0) || y % 400 = 0

/-- Days in a month per Python's `calendar`/`datetime` validation. -/
def daysInMonth (y m : Nat) : Nat :=
  if m = 2 then (if isLeap y then 29 else 28)
  else if m = 4 || m = 6 || m = 9 || m = 11 then 30
  else 31

/-- The exceptions the `datetime` constructor can raise here: `ValueError`
(caught by `parse_event`'s `except (ValueError, AttributeError)` clause, as is
`AttributeError`, which this code path never produces since every regex match
is None-checked before `.group`) and `OverflowError` (NOT caught by that
clause — it escapes to `parse_event`'s caller). -/
inductive PyExn
  | valueError
  | overflowError
deriving DecidableEq

instance {e a : Type} [DecidableEq e] [DecidableEq a] : DecidableEq (Except e a)
  | .error x, .error y =>
    if h : x = y then .isTrue (by rw [h]) else .isFalse (by intro hc; cases hc; exact h rfl)
  | .ok x, .ok y =>
    if h : x = y then .isTrue (by rw [h]) else .isFalse (by intro hc; cases hc; exact h rfl)
  | .error _, .ok _ => .isFalse (by intro hc; cases hc)
  | .ok _, .error _ => .isFalse (by intro hc; cases hc)

/-- Model of the CPython `datetime(year, month, day, hour, minute)`
constructor: argument conversion to C `int` happens first and raises
`OverflowError` when any argument exceeds `2^31 - 1`; only then are the field
ranges validated (`MINYEAR = 1`, `MAXYEAR = 9999`), raising `ValueError` when
out of range. -/
def mkDatetime (y m d h mi : Nat) : Except PyExn PyDateTime :=
  if 2147483648 ≤ y ∨ 2147483648 ≤ m ∨ 2147483648 ≤ d ∨ 2147483648 ≤ h ∨ 2147483648 ≤ mi
  then .error PyExn.overflowError
  else if 1 ≤ y ∧ y ≤ 9999 ∧ 1 ≤ m ∧ m ≤ 12 ∧ 1 ≤ d ∧ d ≤ daysInMonth y m ∧ h ≤ 23 ∧ mi ≤ 59
  then .ok ⟨y, m, d, h, mi⟩ else .error PyExn.valueError

/-- Chronological key: for datetimes with fields in the ranges enforced by
`mkDatetime` (month ≤ 12 < 13, day ≤ 31 < 32, hour ≤ 23, minute ≤ 59) ordering
the keys is exactly Python's chronological `datetime` comparison. -/
def dtKey (dt : PyDateTime) : Nat :=
  (((dt.year * 13 + dt.month) * 32 + dt.day) * 24 + dt.hour) * 60 + dt.minute

/-- Python `start <= end` on datetimes (chronological order). -/
def dtLe (a b : PyDateTime) : Prop := dtKey a ≤ dtKey b

instance (a b : PyDateTime) : Decidable (dtLe a b) :=
  inferInstanceAs (Decidable (dtKey a ≤ dtKey b))

/-- Same calendar date. -/
def sameDay (a b : PyDateTime) : Prop :=
  a.year = b.year ∧ a.month = b.month ∧ a.day = b.day

instance (a b : PyDateTime) : Decidable (sameDay a b) :=
  inferInstanceAs (Decidable (a.year = b.year ∧ a.month = b.month ∧ a.day = b.day))

/-! ### `parse_event` (outlook_web.py lines 304-407) -/

/-- The structured event dict returned by `parse_event`
(keys `title`, `start`, `end`, `all_day`, `raw`). -/
structure StructuredEvent where
  title : String
  start : PyDateTime
  end_ : PyDateTime
  all_day : Bool
  source_text : String
deriving DecidableEq

/-- The `month_map` dict of `parse_event` (lines 361-365). -/
def monthMap : List (String × Nat) :=
  [("January", 1), ("February", 2), ("March", 3), ("April", 4),
   ("May", 5), ("June", 6), ("July", 7), ("August", 8),
   ("September", 9), ("October", 10), ("November", 11), ("December", 12)]

/-- `month_map.get(month_name, 1)`: unrecognized month names default to January. -/
def monthNum (name : List Char) : Nat :=
  (((monthMap.find? fun p => p.1.data = name).map Prod.snd)).getD 1

/-- Marker test of line 330: `' to ' in part and ('AM' in part or 'PM' in part)`. -/
def isTimeRangeSeg (part : List Char) : Bool :=
  containsSub " to ".data part && (containsSub "AM".data part || containsSub "PM".data part)

/-- Marker test of line 333: `'all day' in part.lower()`. -/
def isAllDaySeg (part : List Char) : Bool :=
  containsSub "all day".data (pyLower part)

/-- Marker test of line 336: `re.match(r'(Monday|...|Sunday)', part)`, i.e. the
segment starts with a weekday name. -/
def isWeekdaySeg (part : List Char) : Bool :=
  ["Monday", "Tuesday", "Wednesday", "Thursday", "Friday", "Saturday", "Sunday"].any
    fun w => w.data.isPrefixOf part

/-- Date string reconstruction of lines 337-344: the weekday segment plus the
next one or two comma-delimited segments, joined with `", "`. -/
def buildDatePart (d : List Char) (rest : List (List Char)) : List Char :=
  match rest with
  | p1 :: p2 :: _ => d ++ ", ".data ++ p1 ++ ", ".data ++ p2
  | [p1] => d ++ ", ".data ++ p1
  | [] => d

/-- Result of the marker scan (lines 323-345). -/
structure ScanResult where
  time_part : Option (List Char)
  all_day : Bool
  date_part : Option (List Char)
deriving DecidableEq

/-- The marker scan loop of lines 328-345 over `parts[1:]`: a time-range match
overwrites `time_part` and continues; an all-day match sets the flag and
continues; a weekday match builds `date_part` from this segment and the next
one or two and breaks. -/
def scanSegs : List (List Char) → Option (List Char) → Bool → ScanResult
  | [], tp, ad => ⟨tp, ad, none⟩
  | part :: rest, tp, ad =>
    if isTimeRangeSeg part then scanSegs rest (some part) ad
    else if isAllDaySeg part then scanSegs rest tp true
    else if isWeekdaySeg part then ⟨tp, ad, some (buildDatePart part rest)⟩
    else scanSegs rest tp ad

/-- 12-hour to 24-hour conversion of lines 382-390 (per endpoint):
PM and hour ≠ 12 adds 12; AM and hour = 12 gives 0; otherwise unchanged. -/
def convHour (h : Nat) (ap : AmPm) : Nat :=
  if ap = .pm ∧ h ≠ 12 then h + 12
  else if ap = .am ∧ h = 12 then 0
  else h

/-- The `try:` block of lines 350-407: date regex search, month lookup, then
either the all-day or the timed branch; an exception from a `datetime`
constructor propagates as `.error` to the `except` boundary. -/
def parseDateTimeSection (title raw : String) (tp : Option (List Char)) (ad : Bool)
    (dp : List Char) : Except PyExn (Option StructuredEvent) :=
  match dateSearch dp with
  | none => .ok none
  | some (mn, dds, yds) =>
    let m := monthNum mn
    let d := digitsToNat dds
    let y := digitsToNat yds
    if ad then
      match mkDatetime y m d 0 0 with
      | .error e => .error e
      | .ok s =>
        match mkDatetime y m d 23 59 with
        | .error e => .error e
        | .ok en => .ok (some ⟨title, s, en, true, raw⟩)
    else
      match tp with
      | none => .ok none
      | some t =>
        match timeMatchAt t with
        | none => .ok none
        | some (sh, sm, sap, eh, em, eap) =>
          match mkDatetime y m (digitsToNat dds) (convHour sh sap) sm with
          | .error e => .error e
          | .ok s =>
            match mkDatetime y m (digitsToNat dds) (convHour eh eap) em with
            | .error e => .error e
            | .ok en => .ok (some ⟨title, s, en, false, raw⟩)

/-- The sentinel rejection of line 320:
`title.startswith('calendar view') or title.startswith('current time')`. -/
def sentinelReject (title : List Char) : Bool :=
  "calendar view".data.isPrefixOf title || "current time".data.isPrefixOf title

/-- `parse_event` with any exception of its `try:` block still visible as
`.error`: split on commas and strip (line 313), reject short inputs (314) and
sentinel titles (320), scan for markers (328-345), reject when no date marker
(347), then run the date/time section. -/
def parseEventCore (raw : String) : Except PyExn (Option StructuredEvent) :=
  let parts := (pySplitComma raw.data).map pyStrip
  if parts.length < 3 then .ok none
  else
    let title := parts.headD []
    if sentinelReject title then .ok none
    else
      let sc := scanSegs (parts.drop 1) none false
      match sc.date_part with
      | none => .ok none
      | some dp => parseDateTimeSection (String.mk title) raw sc.time_part sc.all_day dp

/-- The observable outcome of one `parse_event(raw)` call: the
`except (ValueError, AttributeError): return None` boundary turns a
`ValueError` from the date/time section into a rejection, while an
`OverflowError` propagates to the caller (`.error`). -/
def parseEventRun (raw : String) : Except PyExn (Option StructuredEvent) :=
  match parseEventCore raw with
  | .error PyExn.valueError => .ok none
  | .error PyExn.overflowError => .error PyExn.overflowError
  | .ok v => .ok v

/-- The value `parse_event(raw)` returns when it returns normally (accepted
event or rejection); inputs on which it raises are mapped to `none`, so
`parseEvent raw = some e` holds exactly when the call returns the event `e`. -/
def parseEvent (raw : String) : Option StructuredEvent :=
  match parseEventRun raw with
  | .error _ => none
  | .ok v => v

/-! ### Raw Item Collector (outlook_web.py lines 292-299)

`seen = set(); for item in events_data: raw = item.get('raw',''); if raw and
raw not in seen and len(raw) > 5: seen.add(raw); events.append(raw)` — modelled
over the sequence of `raw` fields, with the membership set kept as the list of
already-accepted strings. -/

/-- The dedup loop with its accumulated `seen` set. -/
def collectAux : List String → List String → List String
  | _, [] => []
  | seen, r :: rest =>
    if r ≠ "" ∧ r ∉ seen ∧ 5 < r.length then r :: collectAux (r :: seen) rest
    else collectAux seen rest

/-- The Collector: filter and deduplicate the raw fragments. -/
def collect (frags : List String) : List String := collectAux [] frags

/-- Deduplication keeping the first occurrence of each string. -/
def dedupFirstAux : List String → List String → List String
  | _, [] => []
  | seen, r :: rest =>
    if r ∈ seen then dedupFirstAux seen rest else r :: dedupFirstAux (r :: seen) rest

/-- The Collector as the spec words it: drop fragments of length ≤ 5, then drop
exact duplicates keeping first occurrences. -/
def specCollect (frags : List String) : List String :=
  dedupFirstAux [] (frags.filter fun s => 5 < s.length)

/-! ### JSON serializer (outlook_web.py lines 446-465)

The dict built by `events_to_json` is embedded as a JSON tree.  The Python
stdlib `json.dumps`/`json.loads` pair (outside this repository) is modelled by
its contract: the round trip is the identity on JSON trees. -/

/-- JSON values as produced by `events_to_json` (numbers there are the
non-negative `event_count`). -/
inductive Json
  | null
  | str (s : String)
  | num (n : Nat)
  | bool (b : Bool)
  | arr (xs : List Json)
  | obj (fields : List (String × Json))

/-- Two-digit zero-padded decimal. -/
def pad2 (n : Nat) : String := if n < 10 then "0" ++ Nat.repr n else Nat.repr n

/-- Four-digit zero-padded decimal (years are ≤ 9999 here). -/
def pad4 (n : Nat) : String :=
  if n < 10 then "000" ++ Nat.repr n
  else if n < 100 then "00" ++ Nat.repr n
  else if n < 1000 then "0" ++ Nat.repr n
  else Nat.repr n

/-- Python `datetime.isoformat()` for the datetimes `parse_event` constructs
(seconds zero, no microseconds): `YYYY-MM-DDTHH:MM:SS`. -/
def isoformat (dt : PyDateTime) : String :=
  pad4 dt.year ++ "-" ++ pad2 dt.month ++ "-" ++ pad2 dt.day ++ "T" ++
    pad2 dt.hour ++ ":" ++ pad2 dt.minute ++ ":00"

/-- The per-event object of lines 452-457. -/
def eventToJsonObj (e : StructuredEvent) : Json :=
  .obj [("title", .str e.title), ("start", .str (isoformat e.start)),
        ("end", .str (isoformat e.end_)), ("all_day", .bool e.all_day)]

/-- The envelope of lines 459-464; `fetchedAt` models the formatted
`datetime.now(timezone.utc)` string, passed in as the clock value. -/
def eventsToJson (events : List StructuredEvent) (target : Option String)
    (fetchedAt : String) : Json :=
  .obj [("target", match target with | none => .null | some t => .str t),
        ("fetched_at", .str fetchedAt),
        ("event_count", .num events.length),
        ("events", .arr (events.map eventToJsonObj))]

/-- Modelled from the spec: the Python stdlib round trip
`json.loads(json.dumps(v))` (the `json` module is not part of this repository);
its documented contract makes it the identity on JSON trees. -/
def dumpsLoads (j : Json) : Json := j

/-- An event as read back out of the decoded JSON text. -/
structure DecodedEvent where
  title : String
  start : String
  end_ : String
  all_day : Bool
deriving DecidableEq

/-- The decoded envelope. -/
structure DecodedEnvelope where
  target : Option String
  fetched_at : String
  event_count : Nat
  events : List DecodedEvent
deriving DecidableEq

/-- First-match field lookup in a JSON object. -/
def lookupField : List (String × Json) → String → Option Json
  | [], _ => none
  | (k, v) :: rest, key => if k = key then some v else lookupField rest key

/-- Decode one event object per the spec's JSON schema
(`title`, `start`, `end` strings; `all_day` boolean). -/
def decodeEvent : Json → Option DecodedEvent
  | .obj fields =>
    match lookupField fields "title", lookupField fields "start",
          lookupField fields "end", lookupField fields "all_day" with
    | some (.str t), some (.str s), some (.str e), some (.bool b) => some ⟨t, s, e, b⟩
    | _, _, _, _ => none
  | _ => none

/-- Decode a list of event objects, failing if any element fails. -/
def decodeEventList : List Json → Option (List DecodedEvent)
  | [] => some []
  | j :: rest =>
    match decodeEvent j, decodeEventList rest with
    | some d, some ds => some (d :: ds)
    | _, _ => none

/-- Decode the whole envelope per the spec's JSON schema. -/
def decodeEnvelope : Json → Option DecodedEnvelope
  | .obj fields =>
    match lookupField fields "target", lookupField fields "fetched_at",
          lookupField fields "event_count", lookupField fields "events" with
    | some tj, some (.str f), some (.num n), some (.arr ejs) =>
      match (match tj with
             | .null => some none
             | .str t => some (some t)
             | _ => none),
            decodeEventList ejs with
      | some tgt, some evs => some ⟨tgt, f, n, evs⟩
      | _, _ => none
    | _, _, _, _ => none
  | _ => none

/-! ### iCal serializer (outlook_web.py lines 410-443)

The `hashlib.md5(...).hexdigest()` used for event UIDs (line 424) is embedded
as a full MD5 implementation over byte lists, with 32-bit words as `Nat`
reduced mod `2^32`.  The `DTSTAMP` value `datetime.now(timezone.utc).strftime(...)`
is the only clock dependency and is passed in as a parameter. -/

/-- UTF-8 encoding of one character (Python `str.encode()`), as byte values. -/
def utf8EncodeChar (c : Char) : List Nat :=
  let n := c.toNat
  if n < 128 then [n]
  else if n < 2048 then [192 + n / 64, 128 + n % 64]
  else if n < 65536 then [224 + n / 4096, 128 + (n / 64) % 64, 128 + n % 64]
  else [240 + n / 262144, 128 + (n / 4096) % 64, 128 + (n / 64) % 64, 128 + n % 64]

/-- UTF-8 bytes of a string. -/
def utf8Bytes (s : String) : List Nat := s.data.flatMap utf8EncodeChar

/-- The 64 MD5 sine-derived round constants (RFC 1321). -/
def md5K : List Nat :=
  [0xd76aa478, 0xe8c7b756, 0x242070db, 0xc1bdceee,
   0xf57c0faf, 0x4787c62a, 0xa8304613, 0xfd469501,
   0x698098d8, 0x8b44f7af, 0xffff5bb1, 0x895cd7be,
   0x6b901122, 0xfd987193, 0xa679438e, 0x49b40821,
   0xf61e2562, 0xc040b340, 0x265e5a51, 0xe9b6c7aa,
   0xd62f105d, 0x02441453, 0xd8a1e681, 0xe7d3fbc8,
   0x21e1cde6, 0xc33707d6, 0xf4d50d87, 0x455a14ed,
   0xa9e3e905, 0xfcefa3f8, 0x676f02d9, 0x8d2a4c8a,
   0xfffa3942, 0x8771f681, 0x6d9d6122, 0xfde5380c,
   0xa4beea44, 0x4bdecfa9, 0xf6bb4b60, 0xbebfbc70,
   0x289b7ec6, 0xeaa127fa, 0xd4ef3085, 0x04881d05,
   0xd9d4d039, 0xe6db99e5, 0x1fa27cf8, 0xc4ac5665,
   0xf4292244, 0x432aff97, 0xab9423a7, 0xfc93a039,
   0x655b59c3, 0x8f0ccc92, 0xffeff47d, 0x85845dd1,
   0x6fa87e4f, 0xfe2ce6e0, 0xa3014314, 0x4e0811a1,
   0xf7537e82, 0xbd3af235, 0x2ad7d2bb, 0xeb86d391]

/-- The 64 MD5 per-round left-rotation amounts (RFC 1321). -/
def md5S : List Nat :=
  [7, 12, 17, 22, 7, 12, 17, 22, 7, 12, 17, 22, 7, 12, 17, 22,
   5, 9, 14, 20, 5, 9, 14, 20, 5, 9, 14, 20, 5, 9, 14, 20,
   4, 11, 16, 23, 4, 11, 16, 23, 4, 11, 16, 23, 4, 11, 16, 23,
   6, 10, 15, 21, 6, 10, 15, 21, 6, 10, 15, 21, 6, 10, 15, 21]

/-- Bitwise complement within 32 bits. -/
def not32 (x : Nat) : Nat := 4294967295 ^^^ x

/-- 32-bit left rotation (input assumed `< 2^32`). -/
def rotl32 (x s : Nat) : Nat := ((x <<< s) % 4294967296) ||| (x >>> (32 - s))

/-- `count` little-endian bytes of `n`. -/
def leBytes (n : Nat) : Nat → List Nat
  | 0 => []
  | k + 1 => (n % 256) :: leBytes (n / 256) k

/-- MD5 padding: append 0x80, zero-pad to 56 mod 64, append the 64-bit
little-endian bit length. -/
def md5Pad (msg : List Nat) : List Nat :=
  msg ++ [128] ++ List.replicate ((56 + 64 - (msg.length + 1) % 64) % 64) 0 ++
    leBytes (8 * msg.length) 8

/-- Split a byte list into 64-byte chunks. -/
def chunks64 : List Nat → List (List Nat)
  | [] => []
  | b :: rest => ((b :: rest).take 64) :: chunks64 ((b :: rest).drop 64)
termination_by l => l.length
decreasing_by simp [List.length_drop]; omega

/-- 16 little-endian 32-bit words of a 64-byte chunk. -/
def toWords : List Nat → List Nat
  | a :: b :: c :: d :: rest =>
    (a + 256 * b + 65536 * c + 16777216 * d) :: toWords rest
  | _ => []

/-- Round function and message index for MD5 round `i`. -/
def md5F (i b c d : Nat) : Nat × Nat :=
  if i < 16 then ((b &&& c) ||| (not32 b &&& d), i)
  else if i < 32 then ((d &&& b) ||| (not32 d &&& c), (5 * i + 1) % 16)
  else if i < 48 then (b ^^^ c ^^^ d, (3 * i + 5) % 16)
  else (c ^^^ (b ||| not32 d), (7 * i) % 16)

/-- One MD5 round step on the state `(a, b, c, d)`. -/
def md5Step (M : List Nat) (st : Nat × Nat × Nat × Nat) (i : Nat) : Nat × Nat × Nat × Nat :=
  let f := (md5F i st.2.1 st.2.2.1 st.2.2.2).1
  let g := (md5F i st.2.1 st.2.2.1 st.2.2.2).2
  let f2 := (f + st.1 + md5K.getD i 0 + M.getD g 0) % 4294967296
  (st.2.2.2, (st.2.1 + rotl32 f2 (md5S.getD i 0)) % 4294967296, st.2.1, st.2.2.1)

/-- Process one 64-byte chunk. -/
def md5Chunk (st : Nat × Nat × Nat × Nat) (chunk : List Nat) : Nat × Nat × Nat × Nat :=
  let r := (List.range 64).foldl (md5Step (toWords chunk)) st
  ((st.1 + r.1) % 4294967296, (st.2.1 + r.2.1) % 4294967296,
   (st.2.2.1 + r.2.2.1) % 4294967296, (st.2.2.2 + r.2.2.2) % 4294967296)

/-- Lowercase hex digit. -/
def hexDigit (n : Nat) : Char :=
  if n < 10 then Char.ofNat ('0'.toNat + n) else Char.ofNat ('a'.toNat + n - 10)

/-- Two lowercase hex digits of a byte. -/
def byteHex (b : Nat) : List Char := [hexDigit (b / 16), hexDigit (b % 16)]

/-- `hashlib.md5(bytes).hexdigest()`. -/
def md5Hex (msg : List Nat) : String :=
  let r := (chunks64 (md5Pad msg)).foldl md5Chunk
    (0x67452301, 0xefcdab89, 0x98badcfe, 0x10325476)
  String.mk ((leBytes r.1 4 ++ leBytes r.2.1 4 ++ leBytes r.2.2.1 4 ++
    leBytes r.2.2.2 4).flatMap byteHex)

/-- Python `str(datetime)` for the datetimes built here:
`YYYY-MM-DD HH:MM:SS`. -/
def pyStrDatetime (dt : PyDateTime) : String :=
  pad4 dt.year ++ "-" ++ pad2 dt.month ++ "-" ++ pad2 dt.day ++ " " ++
    pad2 dt.hour ++ ":" ++ pad2 dt.minute ++ ":00"

/-- `strftime('%Y%m%d')`. -/
def strftimeYmd (dt : PyDateTime) : String := pad4 dt.year ++ pad2 dt.month ++ pad2 dt.day

/-- `strftime('%Y%m%dT%H%M%S')` (seconds are zero here). -/
def strftimeFull (dt : PyDateTime) : String :=
  strftimeYmd dt ++ "T" ++ pad2 dt.hour ++ pad2 dt.minute ++ "00"

/-- Line 424: `hashlib.md5(f"{event['title']}{event['start']}".encode()).hexdigest()`. -/
def uidOf (e : StructuredEvent) : String :=
  md5Hex (utf8Bytes (e.title ++ pyStrDatetime e.start))

/-- Line 438: `title.replace('\\','\\\\').replace(',','\\,').replace(';','\;')`,
the three replacements applied in that order. -/
def icalEscape (s : String) : String :=
  String.mk (((s.data.flatMap fun c => if c = '\\' then ['\\', '\\'] else [c]).flatMap
      fun c => if c = ',' then ['\\', ','] else [c]).flatMap
      fun c => if c = ';' then ['\\', ';'] else [c])

/-- The `VEVENT` block for one event (lines 422-440); `now` is the formatted
`DTSTAMP` clock value. -/
def eventLines (now : String) (e : StructuredEvent) : List String :=
  ["BEGIN:VEVENT",
   "UID:" ++ uidOf e ++ "@calscripts",
   "DTSTAMP:" ++ now] ++
  (if e.all_day then
    ["DTSTART;VALUE=DATE:" ++ strftimeYmd e.start,
     "DTEND;VALUE=DATE:" ++ strftimeYmd e.end_]
   else
    ["DTSTART:" ++ strftimeFull e.start,
     "DTEND:" ++ strftimeFull e.end_]) ++
  ["SUMMARY:" ++ icalEscape e.title,
   "END:VEVENT"]

/-- All lines of the iCal document (lines 414-442). -/
def icalLines (now : String) (events : List StructuredEvent) : List String :=
  ["BEGIN:VCALENDAR", "VERSION:2.0", "PRODID:-//calscripts//outlook_web//EN",
   "CALSCALE:GREGORIAN", "METHOD:PUBLISH"] ++
  events.flatMap (eventLines now) ++
  ["END:VCALENDAR"]

/-- `events_to_ical`: the lines joined with CRLF (line 443). -/
def eventsToIcal (now : String) (events : List StructuredEvent) : String :=
  String.intercalate "\r\n" (icalLines now events)

/-! ### Secure Delivery (outlook_web.py lines 468-519)

`post_to_url` is modelled at its I/O contract: the filesystem is a predicate on
(resolved) paths, and the externally-observable steps (existence checks, SSL
context construction, the HTTP POST) are recorded as a trace.  The outcomes of
the external TLS handshake and HTTP exchange enter as the `tlsOk`/`postOk`
parameters. -/

/-- Observable actions of one `post_to_url` call. -/
inductive NetAction
  | checkFile (name : String) (path : String) (found : Bool)
  | buildSslContext
  | httpPost (url : String)
deriving DecidableEq

/-- Result of one `post_to_url` call: the returned boolean, the name of the
missing certificate-material file reported (if any), and the action trace. -/
structure DeliveryResult where
  success : Bool
  missing : Option String
  actions : List NetAction
deriving DecidableEq

/-- `post_to_url(data, url, config)` over resolved certificate paths: lines
484-487 check `[(ca_path, "CA"), (cert_path, "cert"), (key_path, "key")]` in
order and return `False` at the first missing file; only then is the SSL
context built and the single POST performed inside `try:` (lines 489-519),
whose external failures yield `False`. -/
def postToUrl (fs : String → Bool) (caPath certPath keyPath url : String)
    (tlsOk postOk : Bool) : DeliveryResult :=
  if fs caPath = false then
    ⟨false, some "CA", [.checkFile "CA" caPath false]⟩
  else if fs certPath = false then
    ⟨false, some "cert", [.checkFile "CA" caPath true, .checkFile "cert" certPath false]⟩
  else if fs keyPath = false then
    ⟨false, some "key", [.checkFile "CA" caPath true, .checkFile "cert" certPath true,
                         .checkFile "key" keyPath false]⟩
  else
    let checks : List NetAction :=
      [.checkFile "CA" caPath true, .checkFile "cert" certPath true,
       .checkFile "key" keyPath true]
    if tlsOk = false then ⟨false, none, checks ++ [.buildSslContext]⟩
    else ⟨postOk, none, checks ++ [.buildSslContext, .httpPost url]⟩

/-- A segment that takes the date branch of the scan: not a time-range
segment, not an all-day segment, and starting with a weekday name. -/
def isDateMarkerSeg (s : List Char) : Bool :=
  !isTimeRangeSeg s && !isAllDaySeg s && isWeekdaySeg s

/-- A segment that sets the all-day flag in the scan: not a time-range
segment, but containing "all day". -/
def isAllDayMarkerSeg (s : List Char) : Bool :=
  !isTimeRangeSeg s && isAllDaySeg s

/-! ### Helper lemmas -/

/-- Fields and bounds of a successfully constructed datetime. -/
theorem mkDatetime_ok {y m d h mi : Nat} {dt : PyDateTime}
    (hok : mkDatetime y m d h mi = .ok dt) :
    dt.year = y ∧ dt.month = m ∧ dt.day = d ∧ dt.hour = h ∧ dt.minute = mi ∧
      h ≤ 23 ∧ mi ≤ 59 := by
  unfold mkDatetime at hok
  split at hok
  · cases hok
  · split at hok
    · rename_i hcond
      cases hok
      exact ⟨rfl, rfl, rfl, rfl, rfl, hcond.2.2.2.2.2.2.1, hcond.2.2.2.2.2.2.2⟩
    · cases hok

/-- Shape of any event produced by the date/time section. -/
theorem parseDateTimeSection_ok_some {title raw : String} {tp : Option (List Char)}
    {ad : Bool} {dp : List Char} {e : StructuredEvent}
    (h : parseDateTimeSection title raw tp ad dp = .ok (some e)) :
    e.title = title ∧ e.source_text = raw ∧ e.all_day = ad ∧
      sameDay e.start e.end_ ∧
      e.start.hour ≤ 23 ∧ e.start.minute ≤ 59 ∧ e.end_.hour ≤ 23 ∧ e.end_.minute ≤ 59 ∧
      (ad = true → e.start.hour = 0 ∧ e.start.minute = 0 ∧
        e.end_.hour = 23 ∧ e.end_.minute = 59) := by
  unfold parseDateTimeSection at h
  dsimp only at h
  split at h
  · exact absurd h (by simp)
  · split at h
    · -- all-day branch
      rename_i had
      split at h
      · exact absurd h (by simp)
      · rename_i hok1
        split at h
        · exact absurd h (by simp)
        · rename_i hok2
          obtain ⟨hy1, hm1, hd1, hh1, hmi1, _, _⟩ := mkDatetime_ok hok1
          obtain ⟨hy2, hm2, hd2, hh2, hmi2, _, _⟩ := mkDatetime_ok hok2
          injection h with h'
          injection h' with h''
          subst h''
          refine ⟨rfl, rfl, had.symm ▸ rfl, ?_, ?_⟩ <;>
            simp_all [sameDay]
    · -- timed branch
      rename_i had
      split at h
      · exact absurd h (by simp)
      · split at h
        · exact absurd h (by simp)
        · split at h
          · exact absurd h (by simp)
          · rename_i hok1
            split at h
            · exact absurd h (by simp)
            · rename_i hok2
              obtain ⟨hy1, hm1, hd1, hh1, hmi1, hb1, hb1'⟩ := mkDatetime_ok hok1
              obtain ⟨hy2, hm2, hd2, hh2, hmi2, hb2, hb2'⟩ := mkDatetime_ok hok2
              injection h with h'
              injection h' with h''
              subst h''
              simp only [Bool.not_eq_true] at had
              refine ⟨rfl, rfl, by simp [had], ?_, ?_⟩ <;>
                simp_all [sameDay]

/-- An accepted `parse_event` result came from the date/time section, with the
title taken from the first stripped segment which passed the sentinel check. -/
theorem parseEventCore_ok_some {raw : String} {e : StructuredEvent}
    (h : parseEventCore raw = .ok (some e)) :
    e.title = String.mk (((pySplitComma raw.data).map pyStrip).headD []) ∧
      sentinelReject (((pySplitComma raw.data).map pyStrip).headD []) = false ∧
      e.source_text = raw ∧ sameDay e.start e.end_ ∧
      e.start.hour ≤ 23 ∧ e.start.minute ≤ 59 ∧ e.end_.hour ≤ 23 ∧ e.end_.minute ≤ 59 ∧
      (e.all_day = true → e.start.hour = 0 ∧ e.start.minute = 0 ∧
        e.end_.hour = 23 ∧ e.end_.minute = 59) := by
  unfold parseEventCore at h
  dsimp only at h
  split at h
  · exact absurd h (by simp)
  · split at h
    · exact absurd h (by simp)
    · rename_i hsent
      split at h
      · exact absurd h (by simp)
      · obtain ⟨ht, hs, had, hsame, hb1, hb2, hb3, hb4, hadval⟩ :=
          parseDateTimeSection_ok_some h
        refine ⟨ht, by simpa using hsent, hs, hsame, hb1, hb2, hb3, hb4, ?_⟩
        intro hday
        exact hadval (had ▸ hday)

/-- `parse_event` returns an event exactly when its core accepts it (a caught
`ValueError` and an escaping `OverflowError` both yield no event). -/
theorem parseEvent_some {raw : String} {e : StructuredEvent}
    (h : parseEvent raw = some e) : parseEventCore raw = .ok (some e) := by
  unfold parseEvent parseEventRun at h
  cases hc : parseEventCore raw with
  | error ex =>
    cases ex <;> rw [hc] at h <;> simp at h
  | ok v =>
    rw [hc] at h
    dsimp only at h
    rw [h]

/-- Shape of every event accepted by `parse_event`. -/
theorem parseEvent_shape {raw : String} {e : StructuredEvent}
    (h : parseEvent raw = some e) :
    e.title = String.mk (((pySplitComma raw.data).map pyStrip).headD []) ∧
      sentinelReject (((pySplitComma raw.data).map pyStrip).headD []) = false ∧
      e.source_text = raw ∧ sameDay e.start e.end_ ∧
      e.start.hour ≤ 23 ∧ e.start.minute ≤ 59 ∧ e.end_.hour ≤ 23 ∧ e.end_.minute ≤ 59 ∧
      (e.all_day = true → e.start.hour = 0 ∧ e.start.minute = 0 ∧
        e.end_.hour = 23 ∧ e.end_.minute = 59) :=
  parseEventCore_ok_some (parseEvent_some h)

/-! ### Claim theorems -/

/-- C1 (amended): every accepted event has start and end on the same calendar
day; an all-day event runs from 00:00 to 23:59 of that day (hence
`start <= end`); a timed event satisfies `start <= end` whenever its converted
start time-of-day is not later than its end time-of-day (midnight-crossing
ranges violate `start <= end`). -/
theorem parse_event_start_end_invariant (raw : String) (e : StructuredEvent)
    (h : parseEvent raw = some e) :
    (e.all_day = true → e.start.hour = 0 ∧ e.start.minute = 0 ∧
      e.end_.hour = 23 ∧ e.end_.minute = 59 ∧ sameDay e.start e.end_ ∧
      dtLe e.start e.end_) ∧
    (60 * e.start.hour + e.start.minute ≤ 60 * e.end_.hour + e.end_.minute →
      dtLe e.start e.end_) := by
  obtain ⟨-, -, -, hsame, hb1, hb2, hb3, hb4, hadval⟩ := parseEvent_shape h
  obtain ⟨hy, hm, hd⟩ := hsame
  constructor
  · intro hday
    obtain ⟨h1, h2, h3, h4⟩ := hadval hday
    refine ⟨h1, h2, h3, h4, ⟨hy, hm, hd⟩, ?_⟩
    unfold dtLe dtKey
    rw [hy, hm, hd, h1, h2, h3, h4]
    omega
  · intro hle
    unfold dtLe dtKey
    rw [hy, hm, hd]
    omega

/-- C1 witness: the all-day scenario instantiated concretely. -/
theorem parse_event_start_end_invariant_witness :
    dtLe (⟨2026, 2, 3, 0, 0⟩ : PyDateTime) ⟨2026, 2, 3, 23, 59⟩ :=
  ((parse_event_start_end_invariant
      "Offsite, all day event, Tuesday, February 3, 2026"
      ⟨"Offsite", ⟨2026, 2, 3, 0, 0⟩, ⟨2026, 2, 3, 23, 59⟩, true,
        "Offsite, all day event, Tuesday, February 3, 2026"⟩
      (by decide)).1 (by decide)).2.2.2.2.2

/-- C1 counterexample: a timed range crossing midnight is accepted with
`start > end` (both ends are placed on the same parsed day). -/
theorem parse_event_start_le_end_counterexample :
    parseEvent "Late, 11:00 PM to 1:00 AM, Monday, February 3, 2026, extra" =
      some ⟨"Late", ⟨2026, 2, 3, 23, 0⟩, ⟨2026, 2, 3, 1, 0⟩, false,
        "Late, 11:00 PM to 1:00 AM, Monday, February 3, 2026, extra"⟩ ∧
    ¬ dtLe (⟨2026, 2, 3, 23, 0⟩ : PyDateTime) ⟨2026, 2, 3, 1, 0⟩ :=
  ⟨by decide, by decide⟩

/-- C2: the concrete scenario `"Team Sync, 10:00 AM to 11:00 AM, Tuesday,
February 3, 2026, extra"` is accepted with title `"Team Sync"`, start
2026-02-03 10:00, end 2026-02-03 11:00 and `all_day = false` (10:00 AM and
11:00 AM convert to hours 10 and 11). -/
theorem parse_event_team_sync :
    parseEvent "Team Sync, 10:00 AM to 11:00 AM, Tuesday, February 3, 2026, extra" =
      some ⟨"Team Sync", ⟨2026, 2, 3, 10, 0⟩, ⟨2026, 2, 3, 11, 0⟩, false,
        "Team Sync, 10:00 AM to 11:00 AM, Tuesday, February 3, 2026, extra"⟩ := by
  decide

/-- C5 counterexample: a day of 2147483648 (= 2^31) makes the `datetime`
constructor raise `OverflowError`, which the
`except (ValueError, AttributeError)` clause does not catch — `parse_event`
raises to its caller instead of returning a rejection. -/
theorem parse_event_raises_counterexample :
    parseEventRun "Meeting, 10:00 AM to 11:00 AM, Monday, February 2147483648, 2026, x" =
      .error PyExn.overflowError := by
  decide

/-- C5 (amended): every `parse_event` call either returns an accepted event,
returns a rejection, or raises `OverflowError` (an argument of the `datetime`
constructor exceeding `2^31 - 1`); a `ValueError` arising during date/time
conversion (e.g. an invalid day-of-month such as February 30) never escapes —
it is converted into a rejection of that candidate. -/
theorem parse_event_exception_boundary (raw : String) :
    ((∃ e, parseEventRun raw = .ok (some e)) ∨ parseEventRun raw = .ok none ∨
      parseEventRun raw = .error PyExn.overflowError) ∧
    (parseEventCore raw = .error PyExn.valueError → parseEventRun raw = .ok none) := by
  constructor
  · cases hc : parseEventCore raw with
    | error ex =>
      cases ex with
      | valueError =>
        refine Or.inr (Or.inl ?_)
        unfold parseEventRun
        rw [hc]
      | overflowError =>
        refine Or.inr (Or.inr ?_)
        unfold parseEventRun
        rw [hc]
    | ok v =>
      cases v with
      | none =>
        refine Or.inr (Or.inl ?_)
        unfold parseEventRun
        rw [hc]
      | some e =>
        refine Or.inl ⟨e, ?_⟩
        unfold parseEventRun
        rw [hc]
  · intro hv
    unfold parseEventRun
    rw [hv]

/-- C5 witness: February 30 raises a `ValueError` inside the `try:` block and
the candidate is rejected rather than the exception escaping. -/
theorem parse_event_exception_boundary_witness :
    parseEventRun "Meeting, 10:00 AM to 11:00 AM, Monday, February 30, 2026, x" =
      Except.ok none :=
  (parse_event_exception_boundary
      "Meeting, 10:00 AM to 11:00 AM, Monday, February 30, 2026, x").2 (by decide)

/-- C6 (amended): the title of every accepted event is the first
comma-delimited, whitespace-trimmed segment of the raw text and never starts
with the sentinel prefixes "calendar view" or "current time"; it can however
be empty (e.g. when the raw text begins with a comma). -/
theorem parse_event_title_shape (raw : String) (e : StructuredEvent)
    (h : parseEvent raw = some e) :
    e.title = String.mk (((pySplitComma raw.data).map pyStrip).headD []) ∧
      "calendar view".data.isPrefixOf e.title.data = false ∧
      "current time".data.isPrefixOf e.title.data = false := by
  obtain ⟨ht, hsent, -⟩ := parseEvent_shape h
  have hs : sentinelReject e.title.data = false := by rw [ht]; exact hsent
  simp only [sentinelReject, Bool.or_eq_false_iff] at hs
  exact ⟨ht, hs.1, hs.2⟩

/-- C6 witness: the title shape instantiated on the Team Sync scenario. -/
theorem parse_event_title_shape_witness :
    ("Team Sync" : String) =
      String.mk (((pySplitComma
        ("Team Sync, 10:00 AM to 11:00 AM, Tuesday, February 3, 2026, extra" : String).data).map
          pyStrip).headD []) ∧
      "calendar view".data.isPrefixOf ("Team Sync" : String).data = false ∧
      "current time".data.isPrefixOf ("Team Sync" : String).data = false :=
  parse_event_title_shape
    "Team Sync, 10:00 AM to 11:00 AM, Tuesday, February 3, 2026, extra"
    ⟨"Team Sync", ⟨2026, 2, 3, 10, 0⟩, ⟨2026, 2, 3, 11, 0⟩, false,
      "Team Sync, 10:00 AM to 11:00 AM, Tuesday, February 3, 2026, extra"⟩
    (by decide)

/-- C6 counterexample: a raw string beginning with a comma is accepted with an
empty title. -/
theorem parse_event_title_nonempty_counterexample :
    parseEvent ", 10:00 AM to 11:00 AM, Monday, February 3, 2026, x" =
      some ⟨"", ⟨2026, 2, 3, 10, 0⟩, ⟨2026, 2, 3, 11, 0⟩, false,
        ", 10:00 AM to 11:00 AM, Monday, February 3, 2026, x"⟩ ∧
    (parseEvent ", 10:00 AM to 11:00 AM, Monday, February 3, 2026, x").map
        (fun e => e.title) = some "" :=
  ⟨by decide, by decide⟩

/-- C10: every accepted timed (non-all-day) event has its start and end on the
same calendar date — both are built from the single parsed year/month/day. -/
theorem parse_event_timed_same_date (raw : String) (e : StructuredEvent)
    (h : parseEvent raw = some e) (_htimed : e.all_day = false) :
    sameDay e.start e.end_ :=
  (parseEvent_shape h).2.2.2.1

/-- C10 witness: the Team Sync scenario instantiated concretely. -/
theorem parse_event_timed_same_date_witness :
    sameDay (⟨2026, 2, 3, 10, 0⟩ : PyDateTime) ⟨2026, 2, 3, 11, 0⟩ :=
  parse_event_timed_same_date
    "Team Sync, 10:00 AM to 11:00 AM, Tuesday, February 3, 2026, extra"
    ⟨"Team Sync", ⟨2026, 2, 3, 10, 0⟩, ⟨2026, 2, 3, 11, 0⟩, false,
      "Team Sync, 10:00 AM to 11:00 AM, Tuesday, February 3, 2026, extra"⟩
    (by decide) (by decide)

/-- A string longer than 5 characters is non-empty. -/
theorem ne_empty_of_five_lt_length {s : String} (h : 5 < s.length) : s ≠ "" := by
  intro he
  subst he
  exact absurd h (by decide)

/-- The dedup loop yields a sublist of its input (order preserved). -/
theorem collectAux_sublist : ∀ (l seen : List String), (collectAux seen l).Sublist l
  | [], _ => List.Sublist.refl _
  | r :: rest, seen => by
    unfold collectAux
    split
    · exact List.Sublist.cons₂ r (collectAux_sublist rest (r :: seen))
    · exact List.Sublist.cons r (collectAux_sublist rest seen)

/-- Nothing already in `seen` is emitted by the dedup loop. -/
theorem collectAux_not_mem_seen :
    ∀ (l seen : List String) (s : String), s ∈ collectAux seen l → s ∉ seen
  | [], _, s, hs => absurd hs (by simp [collectAux])
  | r :: rest, seen, s, hs => by
    unfold collectAux at hs
    split at hs
    · rename_i hcond
      rcases List.mem_cons.mp hs with he | ht
      · exact he ▸ hcond.2.1
      · intro hmem
        exact collectAux_not_mem_seen rest (r :: seen) s ht (List.mem_cons_of_mem r hmem)
    · exact collectAux_not_mem_seen rest seen s hs

/-- The dedup loop emits no duplicates. -/
theorem collectAux_nodup : ∀ (l seen : List String), (collectAux seen l).Nodup
  | [], _ => List.nodup_nil
  | r :: rest, seen => by
    unfold collectAux
    split
    · refine List.Nodup.cons ?_ (collectAux_nodup rest (r :: seen))
      intro hmem
      exact collectAux_not_mem_seen rest (r :: seen) r hmem (List.mem_cons_self r seen)
    · exact collectAux_nodup rest seen

/-- Every string emitted by the dedup loop is longer than 5 characters. -/
theorem collectAux_length :
    ∀ (l seen : List String) (s : String), s ∈ collectAux seen l → 5 < s.length
  | [], _, s, hs => absurd hs (by simp [collectAux])
  | r :: rest, seen, s, hs => by
    unfold collectAux at hs
    split at hs
    · rename_i hcond
      rcases List.mem_cons.mp hs with he | ht
      · exact he ▸ hcond.2.2
      · exact collectAux_length rest (r :: seen) s ht
    · exact collectAux_length rest seen s hs

/-- The dedup loop equals length-filtering followed by first-occurrence
deduplication. -/
theorem collectAux_eq_dedup :
    ∀ (l seen : List String),
      collectAux seen l = dedupFirstAux seen (l.filter fun s => 5 < s.length)
  | [], _ => rfl
  | r :: rest, seen => by
    by_cases hlen : 5 < r.length
    · by_cases hseen : r ∈ seen
      · have hcond : ¬(r ≠ "" ∧ r ∉ seen ∧ 5 < r.length) := fun hc => hc.2.1 hseen
        simp only [collectAux, if_neg hcond, List.filter_cons,
          decide_eq_true hlen, if_pos rfl]
        simp only [dedupFirstAux, if_pos hseen]
        exact collectAux_eq_dedup rest seen
      · have hcond : r ≠ "" ∧ r ∉ seen ∧ 5 < r.length :=
          ⟨ne_empty_of_five_lt_length hlen, hseen, hlen⟩
        simp only [collectAux, if_pos hcond, List.filter_cons,
          decide_eq_true hlen, if_pos rfl]
        simp only [dedupFirstAux, if_neg hseen]
        rw [collectAux_eq_dedup rest (r :: seen)]
    · have hcond : ¬(r ≠ "" ∧ r ∉ seen ∧ 5 < r.length) := fun hc => hlen hc.2.2
      simp only [collectAux, if_neg hcond, List.filter_cons]
      rw [if_neg (by simpa using hlen)]
      exact collectAux_eq_dedup rest seen

/-- C3: the Collector's output has no duplicates, preserves input order (it is
a sublist of the input), contains only fragments longer than 5 characters, and
equals first-occurrence deduplication of the length-filtered input. -/
theorem collector_dedup_props (frags : List String) :
    (collect frags).Nodup ∧ (∀ s ∈ collect frags, 5 < s.length) ∧
      (collect frags).Sublist frags ∧ collect frags = specCollect frags :=
  ⟨collectAux_nodup frags [],
   fun s hs => collectAux_length frags [] s hs,
   collectAux_sublist frags [],
   collectAux_eq_dedup frags []⟩

/-- C3 witness: the Collector applied to a concrete fragment sequence. -/
theorem collector_dedup_props_witness :
    5 < ("abcdefg" : String).length ∧
      collect ["abcdefg", "abc", "abcdefg", "xyzxyzxyz"] = ["abcdefg", "xyzxyzxyz"] :=
  ⟨(collector_dedup_props ["abcdefg", "abc", "abcdefg", "xyzxyzxyz"]).2.1
      "abcdefg" (by decide),
   by decide⟩

/-- `getLast?` of a cons in terms of the tail's `getLast?`. -/
theorem getLast?_cons_eq_orElse {α : Type} (a : α) (l : List α) :
    (a :: l).getLast? = (l.getLast? <|> some a) := by
  cases l with
  | nil => rfl
  | cons b m =>
    rw [List.getLast?_cons_cons]
    cases hm : (b :: m).getLast? with
    | none => exact absurd (List.getLast?_eq_none_iff.mp hm) (by simp)
    | some x => rw [Option.some_orElse]

/-- An `orElse` whose left side is already `some` absorbs the right side. -/
theorem orElse_some_absorb {α : Type} (x : Option α) (a : α) (tp : Option α) :
    ((x <|> some a) <|> tp) = (x <|> some a) := by
  cases x with
  | none => rw [Option.none_orElse, Option.some_orElse]
  | some v => rw [Option.some_orElse, Option.some_orElse]

/-- C4 (amended): scanning segments before the first date-marker segment, the
time range kept is the LAST time-range segment seen (later matches overwrite
earlier ones), the all-day flag is set if any earlier non-time segment contains
"all day", and the scan stops at the first date-marker segment, whose date part
is built from it and at most the two following segments. -/
theorem marker_scan_last_wins (pre : List (List Char)) (d : List Char)
    (post : List (List Char)) (tp : Option (List Char)) (ad : Bool)
    (hpre : ∀ s ∈ pre, isDateMarkerSeg s = false) (hd : isDateMarkerSeg d = true) :
    scanSegs (pre ++ d :: post) tp ad =
      ⟨((pre.filter isTimeRangeSeg).getLast? <|> tp),
       (ad || pre.any isAllDayMarkerSeg),
       some (buildDatePart d post)⟩ := by
  simp only [isDateMarkerSeg, Bool.and_eq_true, Bool.not_eq_true'] at hd
  obtain ⟨⟨hdt, hda⟩, hdw⟩ := hd
  induction pre generalizing tp ad with
  | nil =>
    simp [scanSegs, hdt, hda, hdw, Option.none_orElse]
  | cons s rest ih =>
    have hs := hpre s (List.mem_cons_self s rest)
    have hrest : ∀ x ∈ rest, isDateMarkerSeg x = false :=
      fun x hx => hpre x (List.mem_cons_of_mem s hx)
    by_cases ht : isTimeRangeSeg s = true
    · rw [List.cons_append]
      have hstep : scanSegs (s :: (rest ++ d :: post)) tp ad =
          scanSegs (rest ++ d :: post) (some s) ad := by
        simp [scanSegs, ht]
      rw [hstep, ih (some s) ad hrest]
      congr 1
      · rw [List.filter_cons, if_pos ht, getLast?_cons_eq_orElse,
          orElse_some_absorb]
      · have hmark : isAllDayMarkerSeg s = false := by
          simp [isAllDayMarkerSeg, ht]
        simp [hmark]
    · have ht' : isTimeRangeSeg s = false := by simpa using ht
      by_cases ha : isAllDaySeg s = true
      · rw [List.cons_append]
        have hstep : scanSegs (s :: (rest ++ d :: post)) tp ad =
            scanSegs (rest ++ d :: post) tp true := by
          simp [scanSegs, ht', ha]
        rw [hstep, ih tp true hrest]
        have hmark : isAllDayMarkerSeg s = true := by
          simp [isAllDayMarkerSeg, ht', ha]
        congr 1
        · rw [List.filter_cons, if_neg (by simp [ht'])]
        · simp [hmark]
      · have ha' : isAllDaySeg s = false := by simpa using ha
        have hw : isWeekdaySeg s = false := by
          simp only [isDateMarkerSeg, ht', ha', Bool.not_false, Bool.true_and] at hs
          exact hs
        rw [List.cons_append]
        have hstep : scanSegs (s :: (rest ++ d :: post)) tp ad =
            scanSegs (rest ++ d :: post) tp ad := by
          simp [scanSegs, ht', ha', hw]
        rw [hstep, ih tp ad hrest]
        have hmark : isAllDayMarkerSeg s = false := by
          simp [isAllDayMarkerSeg, ht', ha']
        congr 1
        · rw [List.filter_cons, if_neg (by simp [ht'])]
        · simp [hmark]

/-- C4 witness: two time-range segments before the date marker — the second
(last) one is kept. -/
theorem marker_scan_last_wins_witness :
    scanSegs (["1:00 AM to 2:00 AM".data, "3:00 AM to 4:00 AM".data] ++
        "Monday".data :: ["February 3".data, "2026".data, "x".data]) none false =
      ⟨((["1:00 AM to 2:00 AM".data, "3:00 AM to 4:00 AM".data].filter
          isTimeRangeSeg).getLast? <|> none),
       (false || ["1:00 AM to 2:00 AM".data, "3:00 AM to 4:00 AM".data].any
          isAllDayMarkerSeg),
       some (buildDatePart "Monday".data ["February 3".data, "2026".data, "x".data])⟩ :=
  marker_scan_last_wins
    ["1:00 AM to 2:00 AM".data, "3:00 AM to 4:00 AM".data]
    "Monday".data ["February 3".data, "2026".data, "x".data] none false
    (by decide) (by decide)

/-- C4 counterexample: with two time-range segments before the date marker the
event's time comes from the SECOND one (3:00-4:00), not the first (1:00-2:00)
as the claim states. -/
theorem marker_scan_first_wins_counterexample :
    parseEvent "T, 1:00 AM to 2:00 AM, 3:00 AM to 4:00 AM, Monday, February 3, 2026, x" =
      some ⟨"T", ⟨2026, 2, 3, 3, 0⟩, ⟨2026, 2, 3, 4, 0⟩, false,
        "T, 1:00 AM to 2:00 AM, 3:00 AM to 4:00 AM, Monday, February 3, 2026, x"⟩ ∧
    (parseEvent
        "T, 1:00 AM to 2:00 AM, 3:00 AM to 4:00 AM, Monday, February 3, 2026, x").map
      (fun e => e.start.hour) ≠ some 1 :=
  ⟨by decide, by decide⟩

/-- Decoding one serialized event recovers its fields. -/
theorem decodeEvent_eventToJsonObj (e : StructuredEvent) :
    decodeEvent (eventToJsonObj e) =
      some ⟨e.title, isoformat e.start, isoformat e.end_, e.all_day⟩ := rfl

/-- Decoding the serialized event array recovers every event's fields. -/
theorem decodeEventList_map (evs : List StructuredEvent) :
    decodeEventList (evs.map eventToJsonObj) =
      some (evs.map fun e => ⟨e.title, isoformat e.start, isoformat e.end_, e.all_day⟩) := by
  induction evs with
  | nil => rfl
  | cons e rest ih =>
    simp only [List.map_cons, decodeEventList, decodeEvent_eventToJsonObj, ih]

/-- C7: serializing a non-empty event list with `events_to_json` and decoding
the resulting JSON text reproduces every event's title, start and end (as the
ISO-8601 strings of the original datetimes) and all-day flag, with
`event_count` equal to the number of events (and `target`/`fetched_at`
preserved). -/
theorem events_to_json_roundtrip (events : List StructuredEvent)
    (target : Option String) (fetchedAt : String) (_hne : events ≠ []) :
    decodeEnvelope (dumpsLoads (eventsToJson events target fetchedAt)) =
      some ⟨target, fetchedAt, events.length,
        events.map fun e => ⟨e.title, isoformat e.start, isoformat e.end_, e.all_day⟩⟩ := by
  cases target with
  | none => simp [dumpsLoads, eventsToJson, decodeEnvelope, lookupField, decodeEventList_map]
  | some t => simp [dumpsLoads, eventsToJson, decodeEnvelope, lookupField, decodeEventList_map]

/-- C7 witness: the round trip on a concrete one-event list. -/
theorem events_to_json_roundtrip_witness :
    decodeEnvelope (dumpsLoads (eventsToJson
        [⟨"Team Sync", ⟨2026, 2, 3, 10, 0⟩, ⟨2026, 2, 3, 11, 0⟩, false, "r"⟩]
        (some "work") "2026-02-03T00:00:00Z")) =
      some ⟨some "work", "2026-02-03T00:00:00Z", 1,
        [⟨"Team Sync", "2026-02-03T10:00:00", "2026-02-03T11:00:00", false⟩]⟩ := by
  have h := events_to_json_roundtrip
    [⟨"Team Sync", ⟨2026, 2, 3, 10, 0⟩, ⟨2026, 2, 3, 11, 0⟩, false, "r"⟩]
    (some "work") "2026-02-03T00:00:00Z" (by simp)
  rw [h]
  rfl

/-- C8: two runs of `events_to_ical` on the same event list, at clock values
`t1` and `t2`, produce the same lines except that corresponding `DTSTAMP`
lines may differ; all other lines — including each event's `UID`, `DTSTART`,
`DTEND` and `SUMMARY` — are equal, being functions of the event alone. -/
theorem events_to_ical_deterministic (events : List StructuredEvent) (t1 t2 : String) :
    eventsToIcal t1 events = String.intercalate "\r\n" (icalLines t1 events) ∧
      List.Forall₂
        (fun a b => a = b ∨ ∃ x y, a = "DTSTAMP:" ++ x ∧ b = "DTSTAMP:" ++ y)
        (icalLines t1 events) (icalLines t2 events) := by
  refine ⟨rfl, ?_⟩
  unfold icalLines
  refine List.rel_append (List.rel_append ?_ ?_) ?_
  · exact List.forall₂_same.mpr fun a _ => Or.inl rfl
  · induction events with
    | nil => exact List.Forall₂.nil
    | cons e rest ih =>
      rw [List.flatMap_cons, List.flatMap_cons]
      refine List.rel_append ?_ ih
      unfold eventLines
      refine List.rel_append (List.rel_append ?_ ?_) ?_
      · exact List.Forall₂.cons (Or.inl rfl) (List.Forall₂.cons (Or.inl rfl)
          (List.Forall₂.cons (Or.inr ⟨t1, t2, rfl, rfl⟩) List.Forall₂.nil))
      · exact List.forall₂_same.mpr fun a _ => Or.inl rfl
      · exact List.forall₂_same.mpr fun a _ => Or.inl rfl
  · exact List.forall₂_same.mpr fun a _ => Or.inl rfl

/-- C9: whenever any of the three certificate-material files is missing at its
resolved path, `post_to_url` returns failure, reports which file is missing,
and neither constructs the SSL context nor performs any HTTP POST. -/
theorem post_to_url_fails_fast (fs : String → Bool)
    (caPath certPath keyPath url : String) (tlsOk postOk : Bool)
    (h : fs caPath = false ∨ fs certPath = false ∨ fs keyPath = false) :
    (postToUrl fs caPath certPath keyPath url tlsOk postOk).success = false ∧
      (∃ n, (postToUrl fs caPath certPath keyPath url tlsOk postOk).missing = some n ∧
        ((n = "CA" ∧ fs caPath = false) ∨ (n = "cert" ∧ fs certPath = false) ∨
          (n = "key" ∧ fs keyPath = false))) ∧
      NetAction.buildSslContext ∉
        (postToUrl fs caPath certPath keyPath url tlsOk postOk).actions ∧
      (∀ u, NetAction.httpPost u ∉
        (postToUrl fs caPath certPath keyPath url tlsOk postOk).actions) := by
  by_cases hca : fs caPath = false
  · refine ⟨by simp [postToUrl, hca], ⟨"CA", by simp [postToUrl, hca], Or.inl ⟨rfl, hca⟩⟩,
      by simp [postToUrl, hca], fun u => by simp [postToUrl, hca]⟩
  · by_cases hcert : fs certPath = false
    · refine ⟨by simp [postToUrl, hca, hcert],
        ⟨"cert", by simp [postToUrl, hca, hcert], Or.inr (Or.inl ⟨rfl, hcert⟩)⟩,
        by simp [postToUrl, hca, hcert], fun u => by simp [postToUrl, hca, hcert]⟩
    · by_cases hkey : fs keyPath = false
      · refine ⟨by simp [postToUrl, hca, hcert, hkey],
          ⟨"key", by simp [postToUrl, hca, hcert, hkey], Or.inr (Or.inr ⟨rfl, hkey⟩)⟩,
          by simp [postToUrl, hca, hcert, hkey],
          fun u => by simp [postToUrl, hca, hcert, hkey]⟩
      · rcases h with h | h | h
        · exact absurd h hca
        · exact absurd h hcert
        · exact absurd h hkey

/-- C9 witness: a filesystem with no files at all — delivery fails with the CA
file reported missing and no SSL/network action taken. -/
theorem post_to_url_fails_fast_witness :
    (postToUrl (fun _ => false) "ca.pem" "crt.pem" "key.pem"
        "https://example.com" true true).success = false ∧
      (∃ n, (postToUrl (fun _ => false) "ca.pem" "crt.pem" "key.pem"
          "https://example.com" true true).missing = some n ∧
        ((n = "CA" ∧ (fun (_ : String) => false) "ca.pem" = false) ∨
          (n = "cert" ∧ (fun (_ : String) => false) "crt.pem" = false) ∨
          (n = "key" ∧ (fun (_ : String) => false) "key.pem" = false))) ∧
      NetAction.buildSslContext ∉ (postToUrl (fun _ => false) "ca.pem" "crt.pem"
        "key.pem" "https://example.com" true true).actions ∧
      (∀ u, NetAction.httpPost u ∉ (postToUrl (fun _ => false) "ca.pem" "crt.pem"
        "key.pem" "https://example.com" true true).actions) :=
  post_to_url_fails_fast (fun _ => false) "ca.pem" "crt.pem" "key.pem"
    "https://example.com" true true (Or.inl rfl)
